import Mathlib

/-!
# bookup — `static/app.js`

A shallow embedding of the browser-side controller `static/app.js`
(`getJobStatus`, `submitConfirmedBooks`, `enqueueLLMAnalysis`,
`checkLLMJobStatus`, `displayFinalResults`) and the properties proved about it.

Conventions of the embedding

* JSON data received from the server is a `JVal`.  JSON numbers are restricted
  to integers; Lean strings stand for JavaScript strings (no lone surrogates).
  The result of the matching job is typed (`TitleMatchSet`, `Candidate`), with
  the two shapes that make the renderer throw kept as `MatchPayload.absent` and
  `MatchPayload.notList`.
* Built-in functions of the JavaScript host whose tables are not part of the
  repository (`toLowerCase`, `JSON.parse`, ...) are fields of a `Host` record
  that the definitions take as a parameter.
* A JavaScript object is an association list in insertion order; `ownEntries`
  gives the order in which `for ... in` and `Object.entries` visit it.
* The page is a `Dom` record; an element that may be missing is an `Option`.
  The content of an element is what the script assigned to it (`innerText`,
  `innerHTML`, appended children).  A string assigned through `innerHTML` is
  markup: the message the browser shows for it is `Host.markupText` of it
  (`Dom.statusShown`, `Dom.resultShown`).  The rule that a radio group has at
  most one checked radio is `Radio.yield`.
* A handler returns an `Outcome`: the new page, the effects it issued
  (`alert`, `fetch`, `setTimeout`) and whether it ended by an uncaught throw.
  The part of a function that runs when a response arrives is a separate
  definition (`..._onReply`).  Console output is not modelled.
-/

namespace Bookup

/-! ## JSON values and host functions -/

/-- A JSON value, as produced by `response.json()` or `JSON.parse`. -/
inductive JVal where
  | null : JVal
  | bool (b : Bool) : JVal
  | num (n : Int) : JVal
  | str (s : String) : JVal
  | arr (items : List JVal) : JVal
  | obj (fields : List (String × JVal)) : JVal

/-- The built-in functions of the JavaScript host that the script calls. -/
structure Host where
  /-- The method `String.prototype.toLowerCase`. -/
  toLowerCase : String → String
  /-- The method `String.prototype.toUpperCase`. -/
  toUpperCase : String → String
  /-- The function `JSON.parse`; `none` when it throws a `SyntaxError`. -/
  JSONparse : String → Option JVal
  /-- The function `JSON.stringify`. -/
  JSONstringify : JVal → String
  /-- The conversion `ToString` on numbers, arrays and objects. -/
  render : JVal → String
  /-- The message of the `TypeError` raised by reading the named property of `null`. -/
  typeErrorMessage : String → String
  /-- The text the browser shows for markup assigned to `innerHTML`: the text of the
  nodes its HTML parser builds from the markup. -/
  markupText : String → String

/-- JavaScript truthiness of a JSON value. -/
def truthy : JVal → Bool
  | .null => false
  | .bool b => b
  | .num n => n != 0
  | .str s => s != ""
  | .arr _ => true
  | .obj _ => true

/-- Truthiness of a possibly `undefined` value. -/
def truthy? : Option JVal → Bool
  | none => false
  | some v => truthy v

/-- The property read `v.key` for one of the plain data keys the script uses, on a
value that is not `null`: own fields of an object, `undefined` on anything
else. -/
def getProp (v : JVal) (key : String) : Option JVal :=
  match v with
  | .obj fields => fields.lookup key
  | _ => none

/-- The conversion `String(v)` / template interpolation of a possibly `undefined`
value. -/
def toStr (h : Host) : Option JVal → String
  | none => "undefined"
  | some .null => "null"
  | some (.bool true) => "true"
  | some (.bool false) => "false"
  | some (.str s) => s
  | some v => h.render v

/-- One element of `Array.prototype.join`: `null` gives the empty string. -/
def joinItem (h : Host) : JVal → String
  | .null => ""
  | v => toStr h (some v)

/-- The method `Array.prototype.join(sep)` on a JSON array. -/
def join (h : Host) (sep : String) (items : List JVal) : String :=
  sep.intercalate (items.map (joinItem h))

/-! ## JavaScript objects as ordered association lists -/

/-- Numeric value of a string of decimal digits. -/
def digitsValue (cs : List Char) : Nat :=
  cs.foldl (fun acc c => 10 * acc + (c.toNat - 48)) 0

/-- Whether a property key is an array index: a canonical decimal numeral below
`2^32 - 1`. -/
def isArrayIndex (k : String) : Bool :=
  match k.data with
  | [] => false
  | c :: cs =>
    (c :: cs).all Char.isDigit && (c != '0' || cs.isEmpty) &&
      decide ((c :: cs).length ≤ 10) && decide (digitsValue (c :: cs) < 4294967295)

/-- The numeric value of an array-index key. -/
def indexValue (k : String) : Nat := digitsValue k.data

/-- Order of two entries with array-index keys. -/
def indexLE {α : Type} (a b : String × α) : Prop := indexValue a.1 ≤ indexValue b.1

instance indexLE.decidable {α : Type} : DecidableRel (indexLE : String × α → String × α → Prop) :=
  fun a b => inferInstanceAs (Decidable (indexValue a.1 ≤ indexValue b.1))

/-- The own enumerable entries of an object in the order `for ... in` and
`Object.entries` visit them: array-index keys in ascending numeric order, then
the other keys in insertion order. -/
def ownEntries {α : Type} (o : List (String × α)) : List (String × α) :=
  (o.filter (fun e => isArrayIndex e.1)).insertionSort indexLE ++
    o.filter (fun e => !isArrayIndex e.1)

/-- The object without its property `k`. -/
def objDelete {α : Type} (o : List (String × α)) (k : String) : List (String × α) :=
  o.filter (fun e => e.1 != k)

/-- The assignment `o[k] = v` on an ordinary data property: an existing key keeps its
place, a new key goes last. -/
def objSet {α : Type} (o : List (String × α)) (k : String) (v : α) : List (String × α) :=
  match o with
  | [] => [(k, v)]
  | e :: rest => if e.1 = k then (k, v) :: rest else e :: objSet rest k v

/-! ## `displayFinalResults`: theme aggregation (lines 289-323) -/

/-- The (key, value) pairs visited by `for (const isbn in finalBookData)`, with
`finalBookData[isbn]` as value: the own entries of an object, the elements of an
array under their indices, the characters of a string, nothing otherwise. -/
def forInEntries : JVal → List (String × JVal)
  | .obj fields => ownEntries fields
  | .arr items => items.enum.map (fun e => (toString e.1, e.2))
  | .str s => s.data.enum.map (fun e => (toString e.1, JVal.str (String.singleton e.2)))
  | _ => []

/-- The lower-cased themes one book contributes (lines 293-294): those of
`book.llm_themes` when `book` is truthy and the property is an array. -/
def bookThemes (h : Host) (book : JVal) : List String :=
  if truthy book then
    match getProp book "llm_themes" with
    | some (.arr ts) => ts.map (fun t => h.toLowerCase (toStr h (some t)))
    | _ => []
  else []

/-- The array `allThemes` after the loop of lines 289-297. -/
def allThemes (h : Host) (finalBookData : Option JVal) : List String :=
  match finalBookData with
  | none => []
  | some d =>
    if truthy d then (forInEntries d).foldl (fun acc e => acc ++ bookThemes h e.2) [] else []

/-- A value stored in `themeFrequencies`: a number, or the non-numeric string that
`(themeFrequencies[theme] || 0) + 1` yields when the first read finds a function
inherited from `Object.prototype`. -/
inductive Freq where
  | count (n : Nat) : Freq
  | junk : Freq
  deriving DecidableEq, Repr

/-- The function-valued properties every object inherits from `Object.prototype`. -/
def inheritedFunctionKeys : List String :=
  ["constructor", "hasOwnProperty", "isPrototypeOf", "propertyIsEnumerable",
   "toLocaleString", "toString", "valueOf", "__defineGetter__", "__defineSetter__",
   "__lookupGetter__", "__lookupSetter__"]

/-- One round of the `forEach` of lines 299-301:
`if(theme) themeFrequencies[theme] = (themeFrequencies[theme] || 0) + 1`.
An empty theme is skipped; an assignment to `__proto__` of a string is ignored. -/
def countTheme (freqs : List (String × Freq)) (theme : String) : List (String × Freq) :=
  if theme = "" then freqs
  else if theme = "__proto__" then freqs
  else
    match freqs.lookup theme with
    | some (.count n) => objSet freqs theme (.count (n + 1))
    | some .junk => objSet freqs theme .junk
    | none =>
      if theme ∈ inheritedFunctionKeys then objSet freqs theme .junk
      else objSet freqs theme (.count 1)

/-- The entry `themeFrequencies` holds for an ordinary theme counted `c` times:
none before the first count. -/
def countedEntry (c : Nat) : Option Freq := if c = 0 then none else some (.count c)

/-- The object `themeFrequencies` after line 301. -/
def themeFrequencies (h : Host) (finalBookData : Option JVal) : List (String × Freq) :=
  (allThemes h finalBookData).foldl countTheme []

/-- The filter `count > 1` of line 303 on one entry; a kept entry has a numeric
count. -/
def significant : String × Freq → Option (String × Nat)
  | (t, .count n) => if 1 < n then some (t, n) else none
  | (_, .junk) => none

/-- The comparator `countB - countA` of line 304 leaves `a` before `b`. -/
def byCountDesc (a b : String × Nat) : Prop := b.2 ≤ a.2

instance byCountDesc.decidable : DecidableRel byCountDesc :=
  fun a b => inferInstanceAs (Decidable (b.2 ≤ a.2))

/-- The array `sortedThemes` of lines 302-305: entries with count above one, stably
sorted by descending count, first ten. -/
def sortedThemes (h : Host) (finalBookData : Option JVal) : List (String × Nat) :=
  (((ownEntries (themeFrequencies h finalBookData)).filterMap significant).insertionSort
    byCountDesc).take 10

/-- The entries that pass the filter of line 303, before sorting. -/
def significantEntries (h : Host) (d : Option JVal) : List (String × Nat) :=
  (ownEntries (themeFrequencies h d)).filterMap significant

/-- The expression `theme.charAt(0).toUpperCase() + theme.slice(1)` of line 316. -/
def displayTheme (h : Host) (theme : String) : String :=
  match theme.data with
  | [] => ""
  | c :: cs => if c.val < 65536 then h.toUpperCase (String.singleton c) ++ String.mk cs else theme

/-- The text of one list item of line 317. -/
def themeItem (h : Host) (e : String × Nat) : String :=
  displayTheme h e.1 ++ " (Appears for " ++ toString e.2 ++ " books)"

/-- The number of books of the final data whose lower-cased theme list contains
`theme`: the frequency as the data model describes it. -/
def booksWithTheme (h : Host) (finalBookData : JVal) (theme : String) : Nat :=
  ((forInEntries finalBookData).filter (fun e => decide (theme ∈ bookThemes h e.2))).length

/-! ## The page, effects and outcomes -/

/-- A radio input of the document. -/
structure Radio where
  name : String
  value : String
  id : String
  checked : Bool
  deriving DecidableEq, Repr

/-- One table row rendered by `getJobStatus` (lines 28-95): the text of the first
cell, the radios of the second cell in document order (the `NONE` radio first,
then one per candidate), the label texts, and the no-matches paragraph. -/
structure Row where
  userInput : String
  radios : List Radio
  noneLabel : String
  labels : List String
  notice : Option String
  deriving DecidableEq, Repr

/-- The content of the `#result` element: a text set through `innerText`, markup
set through `innerHTML`, or the selection form (table rows and the `#confirmBtn`
button with its `disabled` flag). -/
inductive ResultContent where
  | text (s : String) : ResultContent
  | html (s : String) : ResultContent
  | form (rows : List Row) (confirmDisabled : Bool) : ResultContent
  deriving DecidableEq, Repr

/-- The content of `#confirmed_books` or `#common_keywords`: the markup last
assigned to `innerHTML`, the texts of the list items added to its list, and
whether `style.display` was set to `block`. -/
structure Panel where
  html : String
  items : List String
  shown : Bool
  deriving DecidableEq, Repr

/-- The elements of the page the script reads and writes; `none` for an element
that is not in the document.  The radio inputs and the `#confirmBtn` button of
the page are the ones `getJobStatus` renders into `#result`. -/
structure Dom where
  /-- The value of the `#job_id` input. -/
  job_id : Option String
  /-- The content of `#result`. -/
  result : Option ResultContent
  /-- The markup of `#status`: the string last assigned to its `innerHTML`, through
  which the script makes every write to this element.  The browser parses it;
  the message it shows is `Dom.statusShown`. -/
  status : Option String
  /-- The content of `#confirmed_books`. -/
  confirmed_books : Option Panel
  /-- The content of `#common_keywords`. -/
  common_keywords : Option Panel
  deriving DecidableEq, Repr

/-- The message the browser shows in `#status`: the text of its parsed markup. -/
def Dom.statusShown (h : Host) (dom : Dom) : Option String :=
  dom.status.map h.markupText

/-- The message the browser shows in `#result` when its content is a string: a text
assigned through `innerText` is shown as it is, markup assigned through
`innerHTML` is parsed. -/
def Dom.resultShown (h : Host) (dom : Dom) : Option String :=
  match dom.result with
  | some (.text s) => some s
  | some (.html s) => some (h.markupText s)
  | _ => none

/-- A deferred call handed to `setTimeout`. -/
inductive Call where
  | getJobStatus (jobId : String) : Call
  | checkLLMJobStatus (jobId : JVal) : Call

/-- An effect a handler issues besides writing to the page. -/
inductive Effect where
  | alert (message : String) : Effect
  | fetchGet (url : String) : Effect
  | fetchPost (url : String) (body : JVal) : Effect
  | setTimeout (call : Call) (ms : Nat) : Effect

/-- The result of running a handler: the page, the effects in the order issued,
and whether the handler ended by an exception nothing caught. -/
structure Outcome where
  dom : Dom
  effects : List Effect
  threw : Bool

/-- Whether an effect is a `fetch`. -/
def Effect.isFetch : Effect → Bool
  | .fetchGet _ => true
  | .fetchPost _ _ => true
  | _ => false

/-- The `#confirmBtn` button's `disabled` flag, when the button is in the page. -/
def Dom.confirmDisabled (dom : Dom) : Option Bool :=
  match dom.result with
  | some (.form _ d) => some d
  | _ => none

/-- The statement `if(confirmBtn) confirmBtn.disabled = b`. -/
def Dom.setConfirmDisabled (dom : Dom) (b : Bool) : Dom :=
  match dom.result with
  | some (.form rows _) => { dom with result := some (.form rows b) }
  | _ => dom

/-- The radio inputs of the document, in document order. -/
def Dom.radios (dom : Dom) : List Radio :=
  match dom.result with
  | some (.form rows _) => rows.flatMap (fun row => row.radios)
  | _ => []

/-! ## Status responses -/

/-- The strict comparison `data.status === s`. -/
def statusIs (status : Option JVal) (s : String) : Bool :=
  match status with
  | some (.str t) => t == s
  | _ => false

/-- A candidate match `{title, authors, isbn}`. -/
structure Candidate where
  title : String
  authors : List String
  isbn : String
  deriving DecidableEq, Repr

/-- A user title with its candidates: `{user_title, possible_matches}`, each element
of `possible_matches` given by its `match` object. -/
structure TitleMatchSet where
  user_title : String
  possible_matches : List Candidate
  deriving DecidableEq, Repr

/-- The property `data.result` of a matching-phase response: undefined or `null`
(line 8 throws), present without a list under `results_per_title` (line 27
throws), or carrying the list. -/
inductive MatchPayload where
  | absent : MatchPayload
  | notList : MatchPayload
  | titles (l : List TitleMatchSet) : MatchPayload

/-- A truthy status body, as far as the pollers read it. -/
structure StatusData (R : Type) where
  status : Option JVal
  error : Option JVal
  result : R

/-- What `fetch(url).then(response => response.json())` delivers to a poller:
a rejection (network failure or a body that is not JSON), the body `null`,
another falsy body (`false`, `0`, `""`), or a truthy body. -/
inductive Polled (R : Type) where
  | rejected : Polled R
  | null : Polled R
  | falsy : Polled R
  | data (d : StatusData R) : Polled R

/-! ## `getJobStatus` (lines 1-112) -/

/-- The characters the regular expression class `\s` matches. -/
def isJsSpace (c : Char) : Bool :=
  let n := c.toNat
  (9 ≤ n && n ≤ 13) || n == 32 || n == 160 || n == 5760 || (8192 ≤ n && n ≤ 8202) ||
    n == 8232 || n == 8233 || n == 8239 || n == 8287 || n == 12288 || n == 65279

/-- The replacement `replace(/\s+/g, "_")` on a character list; the flag tells
whether the previous character was white space. -/
def collapseSpaces : Bool → List Char → List Char
  | _, [] => []
  | inRun, c :: cs =>
    if isJsSpace c then
      if inRun then collapseSpaces true cs else '_' :: collapseSpaces true cs
    else c :: collapseSpaces false cs

/-- The group name of line 41. -/
def groupName (user_title : String) : String :=
  "select_" ++ String.mk (collapseSpaces false user_title.data)

/-- The object a candidate is in the response. -/
def Candidate.toJVal (c : Candidate) : JVal :=
  .obj [("title", .str c.title), ("authors", .arr (c.authors.map JVal.str)), ("isbn", .str c.isbn)]

/-- The label text of line 79. -/
def matchLabel (c : Candidate) : String :=
  " " ++ c.title ++ " by " ++ ", ".intercalate c.authors ++ " (ISBN: " ++ c.isbn ++ ")"

/-- The radio of one candidate (lines 66-75): checked when its index is 0. -/
def matchRadio (h : Host) (group : String) (index : Nat) (c : Candidate) : Radio :=
  { name := group
    value := h.JSONstringify c.toJVal
    id := "match_" ++ toString index ++ "_" ++ group
    checked := index == 0 }

/-- The radio of the exclude option (lines 43-48, 91). -/
def noneRadio (group : String) (checked : Bool) : Radio :=
  { name := group, value := "NONE", id := "none_" ++ group, checked := checked }

/-- The row built for one title (lines 28-94), before it is put into the table. -/
def renderRow (h : Host) (t : TitleMatchSet) : Row :=
  let group := groupName t.user_title
  if 0 < t.possible_matches.length then
    { userInput := "\"" ++ t.user_title ++ "\""
      radios := noneRadio group false ::
        t.possible_matches.enum.map (fun e => matchRadio h group e.1 e.2)
      noneLabel := " None of these / Exclude this title"
      labels := t.possible_matches.map matchLabel
      notice := none }
  else
    { userInput := "\"" ++ t.user_title ++ "\""
      radios := [noneRadio group true]
      noneLabel := " None of these / Exclude this title"
      labels := []
      notice := some "No matches found by Google Search" }

/-- The names under which a row holds a checked radio. -/
def checkedNames (row : Row) : List String :=
  (row.radios.filter (fun r => r.checked)).map (fun r => r.name)

/-- The radio-group rule of the browser for a radio already in the document when a
checked radio of the names `names` is connected: it loses its check when it is
in the same group, that is, has one of these names. -/
def Radio.yield (names : List String) (r : Radio) : Radio :=
  if r.name ∈ names then { r with checked := false } else r

/-- The call `tableBody.appendChild(row)` of line 95: the row joins the document;
the radios it brings checked win their groups. -/
def connectRow (rows : List Row) (row : Row) : List Row :=
  rows.map (fun old => { old with radios := old.radios.map (Radio.yield (checkedNames row)) })
    ++ [row]

/-- The table rows after the `forEach` of lines 27-96. -/
def renderRows (h : Host) (l : List TitleMatchSet) : List Row :=
  l.foldl (fun rows t => connectRow rows (renderRow h t)) []

/-- The `catch` of lines 109-111; without a `#result` element it throws itself. -/
def getJobStatus_catch (dom : Dom) : Outcome :=
  match dom.result with
  | none => ⟨dom, [], true⟩
  | some _ =>
    ⟨{ dom with result := some (.text "Error communicating with the server.") }, [], false⟩

/-- The call `getJobStatus(jobId)` up to the `fetch` (line 2). -/
def getJobStatus (dom : Dom) (jobId : String) : Outcome :=
  ⟨dom, [.fetchGet ("/results/" ++ jobId)], false⟩

/-- The handling of the response in `getJobStatus` (lines 3-111). -/
def getJobStatus_onReply (h : Host) (dom : Dom) (jobId : String) :
    Polled MatchPayload → Outcome
  | .rejected => getJobStatus_catch dom
  | .null | .falsy =>
    match dom.result with
    | none => getJobStatus_catch dom
    | some _ => ⟨{ dom with result := some (.text "Error fetching results.") }, [], false⟩
  | .data d =>
    if statusIs d.status "finished" then
      match d.result, dom.result with
      | .absent, _ => getJobStatus_catch dom
      | _, none => getJobStatus_catch dom
      | .notList, some _ =>
        getJobStatus_catch { dom with result := some (.form [] false), job_id := none }
      | .titles l, some _ =>
        ⟨{ dom with result := some (.form (renderRows h l) false), job_id := none }, [], false⟩
    else if statusIs d.status "failed" then
      match dom.result with
      | none => getJobStatus_catch dom
      | some _ =>
        ⟨{ dom with result := some (.text ("Book search failed: " ++ toStr h d.error)) }, [],
          false⟩
    else
      match dom.result with
      | none => getJobStatus_catch dom
      | some _ =>
        ⟨{ dom with result := some (.text "Book search pending...") },
          [.setTimeout (.getJobStatus jobId) 1000], false⟩

/-- The `DOMContentLoaded` listener of lines 185-193. -/
def onContentLoaded (dom : Dom) : Outcome :=
  match dom.job_id with
  | none => ⟨dom, [], false⟩
  | some jobId =>
    if jobId = "" then ⟨dom, [], false⟩
    else
      match dom.result with
      | none => ⟨dom, [], true⟩
      | some _ =>
        getJobStatus { dom with result := some (.text "Book search pending...") } jobId

/-! ## `displayFinalResults`: the page update (lines 266-327) -/

/-- The text of the list item of one analysed book (lines 276-283); `none` when the
entry is skipped by the `continue` of line 277. -/
def analysedItem (h : Host) (isbn : String) (book : JVal) : Option String :=
  match book with
  | .null | .bool _ | .num _ | .str _ => none
  | _ =>
    let authors :=
      match getProp book "authors" with
      | some (.arr names) => join h ", " names
      | _ => "Unknown Author"
    let sentimentText :=
      if truthy? (getProp book "llm_sentiment") then
        " LLM Sentiment: " ++ toStr h (getProp book "llm_sentiment")
      else " (LLM Sentiment N/A)"
    let title :=
      if truthy? (getProp book "title") then toStr h (getProp book "title") else "Unknown Title"
    some (title ++ " by " ++ authors ++ " (ISBN: " ++ isbn ++ ")" ++ sentimentText)

/-- The list items of `#confirmed_books` after lines 272-285. -/
def analysedItems (h : Host) (finalBookData : Option JVal) : List String :=
  match finalBookData with
  | none => ["No analysis results available."]
  | some d =>
    if !truthy d || (forInEntries d).isEmpty then ["No analysis results available."]
    else (forInEntries d).filterMap (fun e => analysedItem h e.1 e.2)

/-- The list items of `#common_keywords` after lines 311-320. -/
def themeItems (h : Host) (finalBookData : Option JVal) : List String :=
  if (sortedThemes h finalBookData).isEmpty then
    ["No significant common themes found across multiple books."]
  else (sortedThemes h finalBookData).map (themeItem h)

/-- The function `displayFinalResults(finalBookData)`. -/
def displayFinalResults (h : Host) (dom : Dom) (finalBookData : Option JVal) : Dom :=
  let dom1 : Dom :=
    match dom.confirmed_books with
    | none => dom
    | some _ =>
      let panel : Panel := ⟨"<h3>Analysed Books:</h3><ul></ul>", analysedItems h finalBookData, true⟩
      { dom with confirmed_books := some panel }
  let dom2 : Dom :=
    match dom1.common_keywords with
    | none => dom1
    | some _ =>
      let panel : Panel :=
        ⟨"<h3>Common Themes (from LLM Analysis):</h3>", themeItems h finalBookData, true⟩
      { dom1 with common_keywords := some panel }
  match dom2.result with
  | none => dom2
  | some _ => { dom2 with result := some (.html "") }

/-! ## `checkLLMJobStatus` (lines 235-264) -/

/-- The `catch` of lines 259-263. -/
def checkLLMJobStatus_catch (dom : Dom) : Outcome :=
  match dom.status with
  | none => ⟨dom, [], false⟩
  | some _ => ⟨{ dom with status := some "Error checking analysis job status." }, [], false⟩

/-- The call `checkLLMJobStatus(jobId)` up to the `fetch` (line 236). -/
def checkLLMJobStatus (h : Host) (dom : Dom) (jobId : JVal) : Outcome :=
  ⟨dom, [.fetchGet ("/results/" ++ toStr h (some jobId))], false⟩

/-- The branch of lines 254-257. -/
def checkLLMJobStatus_pending (dom : Dom) (jobId : JVal) : Outcome :=
  ⟨{ dom with status := some "LLM analysis in progress... This may take a minute." },
    [.setTimeout (.checkLLMJobStatus jobId) 5000], false⟩

/-- The handling of the response in `checkLLMJobStatus` (lines 237-263).  Every message
goes to `#status` through `innerHTML`: on `failed`, line 249 assigns the markup
`LLM analysis job failed: ` followed by the error string, and the browser parses
the error string with it. -/
def checkLLMJobStatus_onReply (h : Host) (dom : Dom) (jobId : JVal) :
    Polled (Option JVal) → Outcome
  | .rejected => checkLLMJobStatus_catch dom
  | .null =>
    match dom.status with
    | none => ⟨dom, [], false⟩
    | some _ => checkLLMJobStatus_catch dom
  | .falsy =>
    match dom.status with
    | none => ⟨dom, [], false⟩
    | some _ => checkLLMJobStatus_pending dom jobId
  | .data d =>
    match dom.status with
    | none => ⟨dom, [], false⟩
    | some _ =>
      if statusIs d.status "finished" then
        ⟨displayFinalResults h { dom with status := some "Analysis complete!" } d.result, [],
          false⟩
      else if statusIs d.status "failed" then
        let dom1 : Dom :=
          { dom with status := some ("LLM analysis job failed: " ++ toStr h d.error) }
        match dom1.result with
        | none => ⟨dom1, [], false⟩
        | some _ =>
          ⟨{ dom1 with result := some (.html "<p>Analysis failed. Please try again.</p>") }, [],
            false⟩
      else checkLLMJobStatus_pending dom jobId

/-! ## `enqueueLLMAnalysis` (lines 195-233) -/

/-- A settled promise: fulfilled with a value, or rejected with an error of the given
message. -/
inductive Settled (α : Type) where
  | fulfilled (value : α) : Settled α
  | rejected (message : String) : Settled α

/-- The promise `p.then(f)`, where `f` returns a value or throws. -/
def Settled.andThen {α β : Type} (p : Settled α) (f : α → Settled β) : Settled β :=
  match p with
  | .fulfilled v => f v
  | .rejected m => .rejected m

/-- The promise `p.catch(f)`. -/
def Settled.orCatch {α : Type} (p : Settled α) (f : String → Settled α) : Settled α :=
  match p with
  | .fulfilled v => .fulfilled v
  | .rejected m => f m

/-- The answer to `POST /enqueue_llm_analysis`: the `fetch` is rejected, or a response
arrives with its `ok` flag, its `status` and the settlement of `response.json()`. -/
inductive EnqueueReply where
  | rejected (message : String) : EnqueueReply
  | response (ok : Bool) (status : Nat) (body : Settled JVal) : EnqueueReply

/-- The callback of lines 209-211: `throw new Error(err.error || "HTTP error " + status)`;
reading `err.error` of `null` throws a `TypeError` instead. -/
def throwServerError (h : Host) (status : Nat) (err : JVal) : Settled JVal :=
  match err with
  | .null => .rejected (h.typeErrorMessage "error")
  | _ =>
    if truthy? (getProp err "error") then .rejected (toStr h (getProp err "error"))
    else .rejected ("HTTP error " ++ toString status)

/-- The first `then` of the chain (lines 207-216): the promise it returns. -/
def enqueueLLMAnalysis_body (h : Host) (ok : Bool) (status : Nat) (body : Settled JVal) :
    Settled JVal :=
  if !ok then
    (body.andThen (throwServerError h status)).orCatch
      (fun _ => .rejected ("HTTP error " ++ toString status))
  else body

/-- The `catch` of lines 227-232. -/
def enqueueLLMAnalysis_catch (dom : Dom) (message : String) : Outcome :=
  let dom1 : Dom :=
    match dom.status with
    | none => dom
    | some _ => { dom with status := some ("Error starting analysis: " ++ message) }
  ⟨dom1.setConfirmDisabled false, [], false⟩

/-- The call `enqueueLLMAnalysis(detailedBookData)` up to the `fetch` (lines 196-206);
line 198 throws without a `#status` element. -/
def enqueueLLMAnalysis (dom : Dom) (detailedBookData : JVal) : Outcome :=
  match dom.status with
  | none => ⟨dom, [], true⟩
  | some _ =>
    ⟨{ dom with status := some "Requesting background LLM analysis..." },
      [.fetchPost "/enqueue_llm_analysis" detailedBookData], false⟩

/-- The handling of the answer in `enqueueLLMAnalysis` (lines 207-232). -/
def enqueueLLMAnalysis_onReply (h : Host) (dom : Dom) : EnqueueReply → Outcome
  | .rejected m => enqueueLLMAnalysis_catch dom m
  | .response ok status body =>
    match enqueueLLMAnalysis_body h ok status body with
    | .rejected m => enqueueLLMAnalysis_catch dom m
    | .fulfilled .null => enqueueLLMAnalysis_catch dom (h.typeErrorMessage "job_id")
    | .fulfilled data =>
      match getProp data "job_id" with
      | none =>
        match dom.status with
        | none => ⟨dom, [], false⟩
        | some _ => ⟨{ dom with status := some "Error: Could not get analysis job ID." }, [], false⟩
      | some jobId =>
        if truthy jobId then
          let dom1 : Dom :=
            match dom.status with
            | none => dom
            | some _ =>
              { dom with status := some "Background LLM analysis started... waiting for results." }
          checkLLMJobStatus h dom1 jobId
        else
          match dom.status with
          | none => ⟨dom, [], false⟩
          | some _ =>
            ⟨{ dom with status := some "Error: Could not get analysis job ID." }, [], false⟩

/-! ## `submitConfirmedBooks` (lines 114-183) -/

/-- The object `selections` after the `forEach` of lines 119-124: every checked radio
stores its value under its name; an assignment to `__proto__` of a string is
ignored. -/
def collectSelections (radios : List Radio) : List (String × String) :=
  radios.foldl
    (fun sel radio =>
      if radio.checked then
        if radio.name = "__proto__" then sel else objSet sel radio.name radio.value
      else sel)
    []

/-- The text of the list item of line 139; `none` when the line throws a
`TypeError`, which it does unless `book.authors` is an array. -/
def confirmedItem (h : Host) (book : JVal) : Option String :=
  match getProp book "authors" with
  | some (.arr names) =>
    some (toStr h (getProp book "title") ++ " by " ++ join h ", " names ++ " (ISBN: " ++
      toStr h (getProp book "isbn") ++ ")")
  | _ => none

/-- One round of the loop of lines 130-149 on the pair of the confirmed list items
and `isbnList`. -/
def confirmStep (h : Host) (acc : List String × List JVal) (e : String × String) :
    List String × List JVal :=
  if e.2 = "NONE" then acc
  else
    match h.JSONparse e.2 with
    | none => acc
    | some book =>
      match confirmedItem h book with
      | none => acc
      | some item =>
        match getProp book "isbn" with
        | none => (acc.1 ++ [item], acc.2)
        | some isbn =>
          if truthy isbn then (acc.1 ++ [item], acc.2 ++ [isbn]) else (acc.1 ++ [item], acc.2)

/-- The confirmed list items and `isbnList` after the loop of lines 130-149 over the
object `selections`. -/
def confirmLoop (h : Host) (selections : List (String × String)) : List String × List JVal :=
  (ownEntries selections).foldl (confirmStep h) ([], [])

/-- The function `submitConfirmedBooks()` up to the `fetch` (lines 115-167). -/
def submitConfirmedBooks (h : Host) (dom : Dom) : Outcome :=
  match dom.confirmed_books with
  | none => ⟨dom, [], true⟩
  | some panel =>
    let lists := confirmLoop h (collectSelections dom.radios)
    let shownPanel : Panel :=
      ⟨"<h3>Confirmed Books for analysis:</h3><ul></ul>", lists.1, panel.shown⟩
    let dom1 : Dom := { dom with confirmed_books := some shownPanel }
    if lists.2.length = 0 then
      let warning : Effect :=
        .alert "No books selected to proceed with analysis. Please select at least one match."
      match dom1.status with
      | none => ⟨dom1, [warning], true⟩
      | some _ =>
        ⟨({ dom1 with status := some "No books selected." } : Dom).setConfirmDisabled false,
          [warning], false⟩
    else ⟨dom1, [.fetchPost "/fetch_book_data" (.obj [("isbnList", .arr lists.2)])], false⟩

/-- The handling of the answer to `POST /fetch_book_data` (lines 168-182); an
exception in the `then` callback is caught by the `catch` of line 180. -/
def submitConfirmedBooks_onReply (dom : Dom) : Settled JVal → Outcome
  | .rejected _ => ⟨dom, [], false⟩
  | .fulfilled data =>
    match dom.status, dom.confirmed_books with
    | none, _ => ⟨dom, [], false⟩
    | some _, none =>
      ⟨{ dom with status := some "Book details received. Starting background analysis..." }, [],
        false⟩
    | some _, some panel =>
      let dom1 : Dom :=
        { dom with
          status := some "Book details received. Starting background analysis..."
          confirmed_books := some { panel with shown := true } }
      let o := enqueueLLMAnalysis dom1 data
      if o.threw then ⟨o.dom, o.effects, false⟩
      else ⟨o.dom.setConfirmDisabled true, o.effects, false⟩

/-- The ISBN a selection contributes as the data model describes it: that of a
selection that is not `NONE`, parses to a candidate (a value with an authors
list) and has a truthy, for a string non-empty, `isbn`. -/
def selectedIsbn (h : Host) (e : String × String) : Option JVal :=
  if e.2 = "NONE" then none
  else
    match h.JSONparse e.2 with
    | none => none
    | some book =>
      match getProp book "authors", getProp book "isbn" with
      | some (.arr _), some isbn => if truthy isbn then some isbn else none
      | _, _ => none

/-- A selection value the loop skips by its `catch`: `JSON.parse` throws, or the
parsed value has no `authors` array (the value `null` included). -/
def malformed (h : Host) (value : String) : Bool :=
  match h.JSONparse value with
  | none => true
  | some book => (confirmedItem h book).isNone

/-! ## Poll chains -/

/-- Whether a reply ends a poll chain: a rejection, or a body whose status is
`finished` or `failed`. -/
def Polled.terminal {R : Type} : Polled R → Bool
  | .rejected => true
  | .data d => statusIs d.status "finished" || statusIs d.status "failed"
  | _ => false

/-- The call a timer effect defers. -/
def timerCall : Effect → Option Call
  | .setTimeout call _ => some call
  | _ => none

/-- The response handler a deferred `getJobStatus(jobId)` call leads to. -/
def getJobStatus_resume (h : Host) : Call → Option (Dom → Polled MatchPayload → Outcome)
  | .getJobStatus jobId => some (fun dom reply => getJobStatus_onReply h dom jobId reply)
  | _ => none

/-- The response handler a deferred `checkLLMJobStatus(jobId)` call leads to. -/
def checkLLMJobStatus_resume (h : Host) : Call → Option (Dom → Polled (Option JVal) → Outcome)
  | .checkLLMJobStatus jobId =>
    some (fun dom reply => checkLLMJobStatus_onReply h dom jobId reply)
  | _ => none

/-- A poll chain fed with the successive replies of the server: the handler `step`
consumes a reply; when it set a timer, the deferred call polls again and its
handler consumes the next reply; otherwise the chain is over and the remaining
replies are never asked for.  The result is the final page and all effects
issued on the way. -/
def pollChain {R : Type} (resume : Call → Option (Dom → Polled R → Outcome)) :
    List (Polled R) → (Dom → Polled R → Outcome) → Dom → Dom × List Effect
  | [], _, dom => (dom, [])
  | reply :: replies, step, dom =>
    match (step dom reply).effects.findSome? (fun e => (timerCall e).bind resume) with
    | some next =>
      ((pollChain resume replies next (step dom reply).dom).1,
        (step dom reply).effects ++ (pollChain resume replies next (step dom reply).dom).2)
    | none => ((step dom reply).dom, (step dom reply).effects)

/-! ## Sample inputs -/

/-- ASCII lower-casing of a string. -/
def asciiLower (s : String) : String := String.mk (s.data.map Char.toLower)

/-- ASCII upper-casing of a string. -/
def asciiUpper (s : String) : String := String.mk (s.data.map Char.toUpper)

/-- Final book data
`{"1": {llm_themes:["Love","love","War"]}, "2": {llm_themes:["love","Loss"]}}`. -/
def sampleBooks : JVal :=
  .obj [("1", .obj [("llm_themes", .arr [.str "Love", .str "love", .str "War"])]),
        ("2", .obj [("llm_themes", .arr [.str "love", .str "Loss"])])]

/-- The text `JSON.stringify` gives for a candidate whose strings need no escaping. -/
def candidateText (c : Candidate) : String :=
  "\x7b\"title\":\"" ++ c.title ++ "\",\"authors\":[" ++
    ",".intercalate (c.authors.map (fun a => "\"" ++ a ++ "\"")) ++ "],\"isbn\":\"" ++ c.isbn ++
    "\"\x7d"

/-- A candidate with ISBN `123`. -/
def candidateB : Candidate := ⟨"Emma", ["Jane Austen"], "123"⟩

/-- A candidate with an empty ISBN. -/
def candidateC : Candidate := ⟨"Ulysses", ["James Joyce"], ""⟩

/-- The text `{"authors":["Anon"],"isbn":"9"}`: an object with an authors list and no
title. -/
def untitledText : String := "\x7b\"authors\":[\"Anon\"],\"isbn\":\"9\"\x7d"

/-- The function `JSON.parse` on the sample texts. -/
def sampleParse (s : String) : Option JVal :=
  if s = candidateText candidateB then some candidateB.toJVal
  else if s = candidateText candidateC then some candidateC.toJVal
  else if s = untitledText then some (.obj [("authors", .arr [.str "Anon"]), ("isbn", .str "9")])
  else if s = "null" then some .null
  else none

/-- The text of markup without character references: the characters outside its tags.
A tag runs from a `<` that a letter, `/`, `!` or `?` follows to the next `>`;
the flag tells whether the scan is inside a tag. -/
def stripTags : Bool → List Char → List Char
  | _, [] => []
  | true, c :: cs => if c = '>' then stripTags false cs else stripTags true cs
  | false, c :: cs =>
    if c = '<' then
      match cs with
      | [] => [c]
      | d :: _ =>
        if d.isAlpha || d = '/' || d = '!' || d = '?' then stripTags true cs
        else c :: stripTags false cs
    else c :: stripTags false cs

/-- The function `JSON.stringify` on candidate objects whose strings need no
escaping. -/
def sampleStringify : JVal → String
  | .obj [("title", .str t), ("authors", .arr names), ("isbn", .str i)] =>
    candidateText ⟨t, names.filterMap (fun v => match v with | .str a => some a | _ => none), i⟩
  | _ => "null"

/-- A host for evaluating the definitions on the sample inputs: ASCII case mapping,
`JSON.parse` and `JSON.stringify` as they act on the sample texts and objects,
the HTML parser as it acts on markup without character references. -/
def sampleHost : Host where
  toLowerCase := asciiLower
  toUpperCase := asciiUpper
  JSONparse := sampleParse
  JSONstringify := sampleStringify
  render := fun _ => "[object Object]"
  typeErrorMessage := fun key => "Cannot read properties of null (reading \x27" ++ key ++ "\x27)"
  markupText := fun markup => String.mk (stripTags false markup.data)

/-- Selections `{A: exclude, B: <candidate with isbn "123">, C: <candidate with isbn "">}`. -/
def sampleSelections : List (String × String) :=
  [("select_A", "NONE"), ("select_B", candidateText candidateB),
   ("select_C", candidateText candidateC)]

/-- Two titles that differ in white space only, each with one candidate. -/
def collidingTitles : List TitleMatchSet :=
  [⟨"Dune Messiah", [⟨"Dune Messiah", ["Frank Herbert"], "111"⟩]⟩,
   ⟨"Dune  Messiah", [⟨"Dune Messiah (2nd ed.)", ["Frank Herbert"], "222"⟩]⟩]

/-- Two titles with different group names: one with two candidates, one with
none. -/
def sampleTitles : List TitleMatchSet :=
  [⟨"Emma", [candidateB, ⟨"Emma (abridged)", ["Jane Austen"], "124"⟩]⟩, ⟨"Zzyzx", []⟩]

/-- A status body `{status: s}`. -/
def statusBody (R : Type) (s : String) (result : R) : Polled R :=
  .data ⟨some (.str s), none, result⟩

/-- The page when the script starts: the five elements are present, the job id is
`job-1`. -/
def pageLoaded : Dom where
  job_id := some "job-1"
  result := some (.html "")
  status := some ""
  confirmed_books := some ⟨"", [], false⟩
  common_keywords := some ⟨"", [], false⟩

/-- The page after the matching job finished with `sampleTitles`. -/
def pageRendered : Dom :=
  (getJobStatus_onReply sampleHost (onContentLoaded pageLoaded).dom "job-1"
    (statusBody MatchPayload "finished" (.titles sampleTitles))).dom

/-- The page after the confirm button was clicked and the book details arrived:
the analysis has been requested and the button is disabled. -/
def pageRequested : Dom :=
  (submitConfirmedBooks_onReply (submitConfirmedBooks sampleHost pageRendered).dom
    (.fulfilled sampleBooks)).dom

/-- The page after the analysis job `job-2` was enqueued. -/
def pageAnalysing : Dom :=
  (enqueueLLMAnalysis_onReply sampleHost pageRequested
    (.response true 200 (.fulfilled (.obj [("job_id", .str "job-2")])))).dom

/-! ## Order instances -/

instance indexLE.isTotal {α : Type} : IsTotal (String × α) indexLE :=
  ⟨fun a b => Nat.le_total (indexValue a.1) (indexValue b.1)⟩

instance indexLE.isTrans {α : Type} : IsTrans (String × α) indexLE :=
  ⟨fun _ _ _ hab hbc => Nat.le_trans hab hbc⟩

instance byCountDesc.isTotal : IsTotal (String × Nat) byCountDesc :=
  ⟨fun a b => Nat.le_total b.2 a.2⟩

instance byCountDesc.isTrans : IsTrans (String × Nat) byCountDesc :=
  ⟨fun _ _ _ hab hbc => Nat.le_trans hbc hab⟩

/-! ## Lemmas on ordered objects -/

theorem ownEntries_perm {α : Type} (o : List (String × α)) : (ownEntries o).Perm o := by
  unfold ownEntries
  have h1 := List.perm_insertionSort (indexLE : String × α → String × α → Prop)
    (o.filter (fun e => isArrayIndex e.1))
  exact (h1.append_right _).trans (List.filter_append_perm (fun e => isArrayIndex e.1) o)

theorem mem_ownEntries {α : Type} (o : List (String × α)) (e : String × α) :
    e ∈ ownEntries o ↔ e ∈ o :=
  (ownEntries_perm o).mem_iff

theorem keys_objSet {α : Type} (o : List (String × α)) (k : String) (v : α) :
    (objSet o k v).map Prod.fst =
      if k ∈ o.map Prod.fst then o.map Prod.fst else o.map Prod.fst ++ [k] := by
  induction o with
  | nil => simp [objSet]
  | cons e rest ih =>
    by_cases hk : e.1 = k
    · simp [objSet, hk]
    · have hk2 : ¬ k = e.1 := fun h => hk h.symm
      simp only [objSet, hk, if_false, List.map_cons, ih, List.mem_cons, hk2, false_or]
      split <;> simp

theorem nodup_keys_objSet {α : Type} (o : List (String × α)) (k : String) (v : α)
    (ho : (o.map Prod.fst).Nodup) : ((objSet o k v).map Prod.fst).Nodup := by
  rw [keys_objSet]
  split
  · exact ho
  · rename_i hk
    exact List.Nodup.append ho (List.nodup_singleton k) (by simpa using hk)

theorem lookup_of_mem {α : Type} (o : List (String × α)) (ho : (o.map Prod.fst).Nodup)
    (k : String) (v : α) (hm : (k, v) ∈ o) : o.lookup k = some v := by
  induction o with
  | nil => simp at hm
  | cons e rest ih =>
    obtain ⟨k0, v0⟩ := e
    simp only [List.map_cons, List.nodup_cons, List.mem_map, not_exists, not_and] at ho
    simp only [List.mem_cons, Prod.mk.injEq] at hm
    rcases hm with ⟨rfl, rfl⟩ | hm
    · simp [List.lookup]
    · have hne : k ≠ k0 := fun hEq => ho.1 (k, v) hm (by simp [hEq])
      have : (k == k0) = false := by simpa using hne
      simp only [List.lookup, this]
      exact ih ho.2 hm

theorem mem_of_lookup {α : Type} (o : List (String × α)) (k : String) (v : α)
    (hl : o.lookup k = some v) : (k, v) ∈ o := by
  induction o with
  | nil => simp at hl
  | cons e rest ih =>
    obtain ⟨k0, v0⟩ := e
    by_cases hk : k = k0
    · subst hk
      simp [List.lookup] at hl
      simp [hl]
    · have : (k == k0) = false := by simpa using hk
      simp only [List.lookup, this] at hl
      exact List.mem_cons_of_mem _ (ih hl)

theorem nodup_keys_countTheme (freqs : List (String × Freq)) (theme : String)
    (ho : (freqs.map Prod.fst).Nodup) : ((countTheme freqs theme).map Prod.fst).Nodup := by
  unfold countTheme
  split
  · exact ho
  · split
    · exact ho
    · split
      · exact nodup_keys_objSet _ _ _ ho
      · exact nodup_keys_objSet _ _ _ ho
      · split <;> exact nodup_keys_objSet _ _ _ ho

theorem nodup_keys_foldl_countTheme (themes : List String) (freqs : List (String × Freq))
    (ho : (freqs.map Prod.fst).Nodup) :
    ((themes.foldl countTheme freqs).map Prod.fst).Nodup := by
  induction themes generalizing freqs with
  | nil => exact ho
  | cons t ts ih => exact ih _ (nodup_keys_countTheme freqs t ho)

theorem nodup_keys_themeFrequencies (h : Host) (d : Option JVal) :
    ((themeFrequencies h d).map Prod.fst).Nodup :=
  nodup_keys_foldl_countTheme _ [] (by simp)


theorem significant_eq_some (e : String × Freq) (t : String) (n : Nat)
    (hs : significant e = some (t, n)) : e = (t, .count n) ∧ 1 < n := by
  obtain ⟨k, f⟩ := e
  cases f with
  | junk => simp [significant] at hs
  | count m =>
    by_cases hm : 1 < m
    · simp [significant, hm] at hs
      obtain ⟨rfl, rfl⟩ := hs
      exact ⟨rfl, hm⟩
    · simp [significant, hm] at hs

theorem significant_of_count (t : String) (n : Nat) (hn : 1 < n) :
    significant (t, .count n) = some (t, n) := by
  simp [significant, hn]

theorem mem_significantEntries (h : Host) (d : Option JVal) (t : String) (n : Nat) :
    (t, n) ∈ significantEntries h d ↔
      (themeFrequencies h d).lookup t = some (.count n) ∧ 1 < n := by
  unfold significantEntries
  rw [List.mem_filterMap]
  constructor
  · rintro ⟨a, ha, hs⟩
    obtain ⟨rfl, hn⟩ := significant_eq_some a t n hs
    exact ⟨lookup_of_mem _ (nodup_keys_themeFrequencies h d) _ _
      ((mem_ownEntries _ _).1 ha), hn⟩
  · rintro ⟨hl, hn⟩
    exact ⟨(t, .count n), (mem_ownEntries _ _).2 (mem_of_lookup _ _ _ hl),
      significant_of_count t n hn⟩

theorem distinct_keys_significantEntries (h : Host) (d : Option JVal) :
    (significantEntries h d).Pairwise (fun a b => a.1 ≠ b.1) := by
  unfold significantEntries
  have hE : (ownEntries (themeFrequencies h d)).Pairwise (fun a b => a.1 ≠ b.1) := by
    have hp := (ownEntries_perm (themeFrequencies h d)).map Prod.fst
    have hn := (hp.nodup_iff).2 (nodup_keys_themeFrequencies h d)
    exact List.pairwise_map.1 hn
  refine List.Pairwise.filterMap significant ?_ hE
  intro a a' hne b hb b' hb'
  obtain ⟨t, n⟩ := b
  obtain ⟨t', n'⟩ := b'
  obtain ⟨rfl, _⟩ := significant_eq_some a t n (by simpa using hb)
  obtain ⟨rfl, _⟩ := significant_eq_some a' t' n' (by simpa using hb')
  exact hne

theorem sortedThemes_eq (h : Host) (d : Option JVal) :
    sortedThemes h d = ((significantEntries h d).insertionSort byCountDesc).take 10 := rfl

theorem length_significantEntries (h : Host) (d : Option JVal) :
    (significantEntries h d).length = ((themeFrequencies h d).filterMap significant).length :=
  ((ownEntries_perm (themeFrequencies h d)).filterMap significant).length_eq

/-- Claim C2: for every final book data, `sortedThemes` lists only themes whose computed
count is above 1, lists no theme twice, is in non-increasing order of count, has
length `min 10 k` for `k` the number of themes with count above 1, and no
unlisted theme with count above 1 has a larger count than a listed one; on the
sample data the list is `love` alone, without `war` and `loss`. -/
theorem sortedThemes_top_ten (h : Host) (d : Option JVal) :
    (∀ t n, (t, n) ∈ sortedThemes h d →
        (themeFrequencies h d).lookup t = some (.count n) ∧ 1 < n) ∧
    ((sortedThemes h d).map Prod.fst).Nodup ∧
    (sortedThemes h d).Pairwise (fun a b => b.2 ≤ a.2) ∧
    (sortedThemes h d).length =
      min 10 ((themeFrequencies h d).filterMap significant).length ∧
    (∀ t n, (themeFrequencies h d).lookup t = some (.count n) → 1 < n →
        t ∉ (sortedThemes h d).map Prod.fst → ∀ e ∈ sortedThemes h d, n ≤ e.2) ∧
    (sortedThemes sampleHost (some sampleBooks)).map Prod.fst = ["love"] := by
  have hsorted : ((significantEntries h d).insertionSort byCountDesc).Pairwise byCountDesc :=
    List.sorted_insertionSort byCountDesc (significantEntries h d)
  have hperm := List.perm_insertionSort byCountDesc (significantEntries h d)
  have hdist : ((significantEntries h d).insertionSort byCountDesc).Pairwise
      (fun a b => a.1 ≠ b.1) :=
    (hperm.pairwise_iff (fun {a b} (hab : a.1 ≠ b.1) => hab.symm)).2
      (distinct_keys_significantEntries h d)
  refine ⟨?_, ?_, ?_, ?_, ?_, by decide⟩
  · intro t n hm
    rw [sortedThemes_eq] at hm
    exact (mem_significantEntries h d t n).1 (hperm.mem_iff.1 (List.mem_of_mem_take hm))
  · rw [sortedThemes_eq]
    exact List.pairwise_map.2 (hdist.sublist (List.take_sublist _ _))
  · rw [sortedThemes_eq]
    exact hsorted.sublist (List.take_sublist _ _)
  · rw [sortedThemes_eq, List.length_take, List.length_insertionSort,
      length_significantEntries]
  · intro t n hl hn hnot e he
    rw [sortedThemes_eq] at hnot he
    have hmem : (t, n) ∈ (significantEntries h d).insertionSort byCountDesc :=
      hperm.mem_iff.2 ((mem_significantEntries h d t n).2 ⟨hl, hn⟩)
    rw [← List.take_append_drop 10 ((significantEntries h d).insertionSort byCountDesc)]
      at hmem hsorted
    rcases List.mem_append.1 hmem with h1 | h2
    · exact absurd (List.mem_map.2 ⟨(t, n), h1, rfl⟩) hnot
    · exact (List.pairwise_append.1 hsorted).2.2 e he (t, n) h2


theorem isbnList_step (h : Host) (acc : List String × List JVal) (e : String × String) :
    (confirmStep h acc e).2 = acc.2 ++ (selectedIsbn h e).toList := by
  unfold confirmStep selectedIsbn confirmedItem
  by_cases hN : e.2 = "NONE"
  · simp [hN]
  · simp only [hN, if_false]
    cases hP : h.JSONparse e.2 with
    | none => simp
    | some book =>
      cases hA : getProp book "authors" with
      | none => simp [hA]
      | some a =>
        cases hI : getProp book "isbn" with
        | none => cases a <;> simp [hA, hI]
        | some isbn => by_cases ht : truthy isbn = true <;> cases a <;> simp [hA, hI, ht]

theorem isbnList_foldl (h : Host) (l : List (String × String)) (acc : List String × List JVal) :
    (l.foldl (confirmStep h) acc).2 = acc.2 ++ l.filterMap (selectedIsbn h) := by
  induction l generalizing acc with
  | nil => simp
  | cons e rest ih =>
    rw [List.foldl_cons, ih, isbnList_step, List.filterMap_cons]
    cases selectedIsbn h e <;> simp

theorem ownEntries_of_no_index {α : Type} (o : List (String × α))
    (hno : ∀ e ∈ o, isArrayIndex e.1 = false) : ownEntries o = o := by
  unfold ownEntries
  have h1 : o.filter (fun e => isArrayIndex e.1) = [] :=
    List.filter_eq_nil_iff.2 (fun e he => by simp [hno e he])
  have h2 : o.filter (fun e => !isArrayIndex e.1) = o :=
    List.filter_eq_self.2 (fun e he => by simp [hno e he])
  rw [h1, h2]
  rfl

/-- A group name of line 41 is never an array index, so the selections of the rendered
form are visited in the order the groups were inserted. -/
theorem isArrayIndex_groupName (user_title : String) :
    isArrayIndex (groupName user_title) = false := by
  simp [isArrayIndex, groupName, Char.isDigit]

/-- Claim C3: for every selection map, the ISBN list `submitConfirmedBooks` builds is
the list, in the order the loop visits the groups, of the `isbn` of each group
whose value is not `NONE`, parses to a candidate and has a non-empty `isbn`,
duplicates kept; the order is that of the map when no group name is an array
index; for the sample selections the list is exactly `["123"]`. -/
theorem isbnList_eq_selected (h : Host) (selections : List (String × String)) :
    (confirmLoop h selections).2 = (ownEntries selections).filterMap (selectedIsbn h) ∧
    ((∀ e ∈ selections, isArrayIndex e.1 = false) →
      (confirmLoop h selections).2 = selections.filterMap (selectedIsbn h)) ∧
    (confirmLoop sampleHost sampleSelections).2 = [.str "123"] := by
  have hmain : (confirmLoop h selections).2 =
      (ownEntries selections).filterMap (selectedIsbn h) := by
    unfold confirmLoop
    rw [isbnList_foldl]
    rfl
  refine ⟨hmain, fun hno => ?_, rfl⟩
  rw [hmain, ownEntries_of_no_index selections hno]

theorem orderedInsert_of_head {α : Type} (r : α → α → Prop) [DecidableRel r] (a : α)
    (l : List α) (hl : ∀ b ∈ l, r a b) : l.orderedInsert r a = a :: l := by
  cases l with
  | nil => rfl
  | cons b t => simp [List.orderedInsert, hl b (List.mem_cons_self _ _)]

theorem filter_orderedInsert {α : Type} (r : α → α → Prop) [DecidableRel r] [IsTrans α r]
    (p : α → Bool) (a : α) (s : List α) (hs : s.Sorted r) :
    (s.orderedInsert r a).filter p =
      if p a then (s.filter p).orderedInsert r a else s.filter p := by
  induction s with
  | nil => by_cases hp : p a <;> simp [hp]
  | cons b t ih =>
    have hb : ∀ x ∈ t, r b x := fun x hx => List.rel_of_sorted_cons hs x hx
    have ih2 := ih hs.of_cons
    by_cases hab : r a b
    · have hall : ∀ x ∈ (b :: t).filter p, r a x := by
        intro x hx
        have hx2 := (List.mem_filter.1 hx).1
        rcases List.mem_cons.1 hx2 with rfl | hx3
        · exact hab
        · exact IsTrans.trans a b x hab (hb x hx3)
      rw [List.orderedInsert, if_pos hab, orderedInsert_of_head r a _ hall]
      by_cases hp : p a <;> simp [hp]
    · rw [List.orderedInsert, if_neg hab]
      by_cases hpb : p b
      · rw [List.filter_cons_of_pos hpb, ih2, List.filter_cons_of_pos hpb]
        by_cases hp : p a
        · simp [hp, List.orderedInsert, hab]
        · simp [hp]
      · rw [List.filter_cons_of_neg hpb, ih2, List.filter_cons_of_neg hpb]

theorem filter_insertionSort {α : Type} (r : α → α → Prop) [DecidableRel r] [IsTrans α r]
    [IsTotal α r] (p : α → Bool) (l : List α) :
    (l.insertionSort r).filter p = (l.filter p).insertionSort r := by
  induction l with
  | nil => rfl
  | cons a t ih =>
    rw [List.insertionSort, filter_orderedInsert r p a _ (List.sorted_insertionSort r t), ih]
    by_cases hp : p a
    · simp [hp, List.filter_cons_of_pos]
    · simp [hp, List.filter_cons_of_neg]

theorem ownEntries_filter {α : Type} (p : String × α → Bool) (o : List (String × α)) :
    ownEntries (o.filter p) = (ownEntries o).filter p := by
  unfold ownEntries
  rw [List.filter_append, filter_insertionSort]
  congr 1
  · congr 1
    rw [List.filter_filter, List.filter_filter]
    congr 1
    funext e
    exact Bool.and_comm _ _
  · rw [List.filter_filter, List.filter_filter]
    congr 1
    funext e
    exact Bool.and_comm _ _

theorem foldl_filter_skip {α β : Type} (step : β → α → β) (p : α → Bool) (l : List α)
    (hskip : ∀ e ∈ l, p e = false → ∀ acc, step acc e = acc) (acc : β) :
    (l.filter p).foldl step acc = l.foldl step acc := by
  induction l generalizing acc with
  | nil => rfl
  | cons e rest ih =>
    have ih2 := ih (fun x hx => hskip x (List.mem_cons_of_mem _ hx))
    by_cases hp : p e = true
    · rw [List.filter_cons_of_pos hp, List.foldl_cons, List.foldl_cons, ih2]
    · have hp2 : p e = false := by simpa using hp
      rw [List.filter_cons_of_neg hp, List.foldl_cons,
        hskip e (List.mem_cons_self _ _) hp2 acc, ih2]

theorem confirmStep_malformed (h : Host) (e : String × String) (hm : malformed h e.2 = true)
    (acc : List String × List JVal) : confirmStep h acc e = acc := by
  unfold confirmStep
  unfold malformed at hm
  by_cases hN : e.2 = "NONE"
  · simp [hN]
  · simp only [hN, if_false]
    cases hp : h.JSONparse e.2 with
    | none => rfl
    | some book =>
      rw [hp] at hm
      simp only [Option.isNone_iff_eq_none] at hm
      simp [hm]

/-- Claim C8, amended: for every selection map and every group in it whose value is not
`NONE` and is rejected by the `try` block (`JSON.parse` throws, or the parsed
value is `null` or has no `authors` array), the loop builds the same confirmed
list and the same ISBN list as for the map with that group removed. -/
theorem malformed_selection_skipped (h : Host) (selections : List (String × String))
    (group : String)
    (hbad : ∀ value, (group, value) ∈ selections → value ≠ "NONE" ∧ malformed h value = true) :
    confirmLoop h selections = confirmLoop h (objDelete selections group) := by
  unfold confirmLoop objDelete
  rw [ownEntries_filter]
  symm
  apply foldl_filter_skip
  intro e he hp acc
  have hk : e.1 = group := by simpa using hp
  have hmem : (group, e.2) ∈ selections := by
    have := (mem_ownEntries selections e).1 he
    rw [← hk]
    exact this
  exact confirmStep_malformed h e (hbad e.2 hmem).2 acc


/-! ## Theme frequencies on the sample -/

/-- Claim C1 at the sample data: the frequency the code computes for `love` is 3, the
number of occurrences, while `love` is a theme of 2 books. -/
theorem themeFrequency_love_counts_occurrences :
    (themeFrequencies sampleHost (some sampleBooks)).lookup "love" = some (.count 3) ∧
    booksWithTheme sampleHost sampleBooks "love" = 2 ∧
    themeItems sampleHost (some sampleBooks) = ["Love (Appears for 3 books)"] := by
  decide

/-! ## Default selections -/

/-- Claim C4 at two titles that collapse to one group name: after rendering, no radio
of the first title is checked, although it has a candidate. -/
theorem colliding_titles_lose_default :
    groupName "Dune Messiah" = groupName "Dune  Messiah" ∧
    (renderRows sampleHost collidingTitles).map (fun row => row.radios.map (fun r => r.checked))
      = [[false, false], [false, true]] ∧
    ((collectSelections ((renderRows sampleHost collidingTitles).flatMap
      (fun row => row.radios))).map Prod.fst) = ["select_Dune_Messiah"] := by
  decide

/-! ## Submission -/

/-- Claim C5: with the `#confirmed_books` and `#status` elements in the page,
`submitConfirmedBooks` issues a `fetch` exactly when the ISBN list is not empty;
on an empty list it raises the alert, writes `No books selected.`, enables the
button and issues nothing else; on a non-empty list the one effect is the POST
to `/fetch_book_data` whose body carries that list as `isbnList`. -/
theorem submit_posts_iff_isbns (h : Host) (dom : Dom)
    (hc : dom.confirmed_books ≠ none) (hs : dom.status ≠ none) :
    ((submitConfirmedBooks h dom).effects.any Effect.isFetch = true ↔
        (confirmLoop h (collectSelections dom.radios)).2 ≠ []) ∧
    ((confirmLoop h (collectSelections dom.radios)).2 = [] →
        (submitConfirmedBooks h dom).effects =
          [.alert "No books selected to proceed with analysis. Please select at least one match."] ∧
        (submitConfirmedBooks h dom).dom.status = some "No books selected." ∧
        (submitConfirmedBooks h dom).dom.confirmDisabled =
          dom.confirmDisabled.map (fun _ => false) ∧
        (submitConfirmedBooks h dom).threw = false) ∧
    ((confirmLoop h (collectSelections dom.radios)).2 ≠ [] →
        (submitConfirmedBooks h dom).effects =
          [.fetchPost "/fetch_book_data"
            (.obj [("isbnList", .arr (confirmLoop h (collectSelections dom.radios)).2)])]) := by
  obtain ⟨job, result, status, confirmed, keywords⟩ := dom
  cases confirmed with
  | none => exact absurd rfl hc
  | some panel =>
    cases status with
    | none => exact absurd rfl hs
    | some st =>
      by_cases hl : (confirmLoop h (collectSelections
          (Dom.radios ⟨job, result, some st, some panel, keywords⟩))).2 = []
      · have hlen : (confirmLoop h (collectSelections
            (Dom.radios ⟨job, result, some st, some panel, keywords⟩))).2.length = 0 := by
          rw [hl]; rfl
        refine ⟨?_, ?_, fun hne => absurd hl hne⟩
        · simp [submitConfirmedBooks, hlen, hl, Effect.isFetch]
        · intro _
          have hrun : submitConfirmedBooks h ⟨job, result, some st, some panel, keywords⟩ =
              ⟨Dom.setConfirmDisabled
                ⟨job, result, some "No books selected.",
                  some ⟨"<h3>Confirmed Books for analysis:</h3><ul></ul>",
                    (confirmLoop h (collectSelections
                      (Dom.radios ⟨job, result, some st, some panel, keywords⟩))).1,
                    panel.shown⟩, keywords⟩ false,
                [.alert
                  "No books selected to proceed with analysis. Please select at least one match."],
                false⟩ := by
            simp only [submitConfirmedBooks, hlen, if_true]
          rw [hrun]
          refine ⟨rfl, ?_, ?_, rfl⟩
          · cases result with
            | none => rfl
            | some rc => cases rc <;> rfl
          · cases result with
            | none => rfl
            | some rc => cases rc <;> rfl
      · have hlen : ¬ (confirmLoop h (collectSelections
            (Dom.radios ⟨job, result, some st, some panel, keywords⟩))).2.length = 0 := by
          intro h0
          exact hl (List.length_eq_zero.1 h0)
        refine ⟨?_, fun he => absurd he hl, fun _ => ?_⟩
        · simp [submitConfirmedBooks, hlen, hl, Effect.isFetch]
        · simp [submitConfirmedBooks, hlen]

/-- Claim C5 on the rendered sample page, whose selections give the ISBN `123`. -/
theorem submit_posts_iff_isbns_sample :
    pageRendered.confirmed_books ≠ none ∧ pageRendered.status ≠ none ∧
    (submitConfirmedBooks sampleHost pageRendered).effects =
      [.fetchPost "/fetch_book_data" (.obj [("isbnList", .arr [.str "123"])])] :=
  ⟨by decide, by decide,
    (submit_posts_iff_isbns sampleHost pageRendered (by decide) (by decide)).2.2
      (by rw [show (confirmLoop sampleHost (collectSelections pageRendered.radios)).2
            = [.str "123"] from rfl]; simp)⟩


/-- Claim C8 fails for a parsed value without a title: the selection
`{"authors":["Anon"],"isbn":"9"}` is not `NONE`, its parsed value has an authors
list and no title, and the loop does not skip it. -/
theorem untitled_selection_not_skipped :
    untitledText ≠ "NONE" ∧
    (sampleHost.JSONparse untitledText).map (fun book => (getProp book "title").isNone)
      = some true ∧
    (confirmLoop sampleHost [("select_X", untitledText)]).1 = ["undefined by Anon (ISBN: 9)"] ∧
    (confirmLoop sampleHost (objDelete [("select_X", untitledText)] "select_X")).1 = [] ∧
    confirmLoop sampleHost [("select_X", untitledText)] ≠
      confirmLoop sampleHost (objDelete [("select_X", untitledText)] "select_X") := by
  refine ⟨by decide, by decide, by decide, by decide, ?_⟩
  intro hEq
  have h1 := congrArg Prod.fst hEq
  revert h1
  decide

/-- Claim C8 as amended, on selections whose second value is the text `undefined`, which
`JSON.parse` rejects: the lists are those of the first selection alone. -/
theorem malformed_selection_skipped_sample :
    (∀ value, ("select_Y", value) ∈
        [("select_B", candidateText candidateB), ("select_Y", "undefined")] →
      value ≠ "NONE" ∧ malformed sampleHost value = true) ∧
    confirmLoop sampleHost [("select_B", candidateText candidateB), ("select_Y", "undefined")] =
      confirmLoop sampleHost
        (objDelete [("select_B", candidateText candidateB), ("select_Y", "undefined")]
          "select_Y") :=
  ⟨by intro value hv; simp at hv; subst hv; decide,
   malformed_selection_skipped sampleHost _ "select_Y"
    (by intro value hv; simp at hv; subst hv; decide)⟩

/-! ## Enqueueing the analysis -/

theorem throwServerError_rejects (h : Host) (s : Nat) (err : JVal) :
    ∃ m, throwServerError h s err = .rejected m := by
  by_cases ht : truthy? (getProp err "error") = true
  · cases err <;> simp [throwServerError, ht]
  · cases err <;> simp [throwServerError, ht]

/-- Claim C10: the promise of the first `then` is rejected with `HTTP error s` for every
non-success response, whatever the body; once the POST was issued, the status
element then reads `Error starting analysis: HTTP error s`. -/
theorem non_success_shows_http_error (h : Host) (dom : Dom) (data : JVal) (s : Nat)
    (body : Settled JVal) (hposted : (enqueueLLMAnalysis dom data).threw = false) :
    enqueueLLMAnalysis_body h false s body = .rejected ("HTTP error " ++ toString s) ∧
    (enqueueLLMAnalysis_onReply h (enqueueLLMAnalysis dom data).dom
        (.response false s body)).dom.status =
      some ("Error starting analysis: HTTP error " ++ toString s) := by
  have hbody : enqueueLLMAnalysis_body h false s body =
      .rejected ("HTTP error " ++ toString s) := by
    cases body with
    | rejected m => rfl
    | fulfilled err =>
      obtain ⟨m, hm⟩ := throwServerError_rejects h s err
      simp [enqueueLLMAnalysis_body, Settled.andThen, Settled.orCatch, hm]
  refine ⟨hbody, ?_⟩
  obtain ⟨job, result, status, confirmed, keywords⟩ := dom
  cases status with
  | none => simp [enqueueLLMAnalysis] at hposted
  | some st =>
    simp only [enqueueLLMAnalysis_onReply, hbody, enqueueLLMAnalysis, enqueueLLMAnalysis_catch]
    cases result with
    | none => rfl
    | some rc => cases rc <;> rfl

/-- Claim C10 on the sample page, for status 500 and a body `{"error": "boom"}`. -/
theorem non_success_shows_http_error_sample :
    (enqueueLLMAnalysis pageRendered sampleBooks).threw = false ∧
    (enqueueLLMAnalysis_onReply sampleHost (enqueueLLMAnalysis pageRendered sampleBooks).dom
        (.response false 500 (.fulfilled (.obj [("error", .str "boom")])))).dom.status =
      some "Error starting analysis: HTTP error 500" :=
  ⟨by decide,
   (non_success_shows_http_error sampleHost pageRendered sampleBooks 500
      (.fulfilled (.obj [("error", .str "boom")])) (by decide)).2⟩

/-- A successful response whose body is not `null` and has no truthy `job_id` leaves the
confirm button as it was and issues no effect. -/
theorem missing_job_id_keeps_button (h : Host) (dom : Dom) (s : Nat) (data : JVal)
    (hnull : data ≠ .null)
    (hjob : truthy? (getProp data "job_id") = false) :
    (enqueueLLMAnalysis_onReply h dom (.response true s (.fulfilled data))).dom.confirmDisabled =
      dom.confirmDisabled ∧
    (enqueueLLMAnalysis_onReply h dom (.response true s (.fulfilled data))).effects = [] := by
  obtain ⟨job, result, status, confirmed, keywords⟩ := dom
  cases data with
  | null => exact absurd rfl hnull
  | bool b => cases status <;> exact ⟨rfl, rfl⟩
  | num n => cases status <;> exact ⟨rfl, rfl⟩
  | str t => cases status <;> exact ⟨rfl, rfl⟩
  | arr items => cases status <;> exact ⟨rfl, rfl⟩
  | obj fields =>
    have hbody : enqueueLLMAnalysis_body h true s (.fulfilled (.obj fields)) =
        .fulfilled (.obj fields) := rfl
    unfold enqueueLLMAnalysis_onReply
    simp only [hbody]
    cases hget : getProp (.obj fields) "job_id" with
    | none => cases status <;> exact ⟨rfl, rfl⟩
    | some jobId =>
      have hfalse : truthy jobId = false := by simpa [hget, truthy?] using hjob
      simp only [hfalse]
      cases status <;> exact ⟨rfl, rfl⟩

/-- Claim C6 at a successful response whose body `{}` carries no job id: the error is
written, no poll starts, and the confirm button stays disabled; the `catch` path
of a non-success response enables it. -/
theorem missing_job_id_leaves_button_disabled :
    pageRequested.confirmDisabled = some true ∧
    (enqueueLLMAnalysis_onReply sampleHost pageRequested
        (.response true 200 (.fulfilled (.obj [])))).dom.status =
      some "Error: Could not get analysis job ID." ∧
    (enqueueLLMAnalysis_onReply sampleHost pageRequested
        (.response true 200 (.fulfilled (.obj [])))).effects.length = 0 ∧
    (enqueueLLMAnalysis_onReply sampleHost pageRequested
        (.response true 200 (.fulfilled (.obj [])))).dom.confirmDisabled = some true ∧
    (enqueueLLMAnalysis_onReply sampleHost pageRequested
        (.response false 500 (.fulfilled (.obj [])))).dom.confirmDisabled = some false := by
  decide


/-! ## Polling -/

/-- Claim C7 fails as stated: the first `pending` reply of the analysis phase replaces
the text of the status element, so the page is not left unchanged. -/
theorem pending_reply_rewrites_status :
    pageAnalysing.status = some "Background LLM analysis started... waiting for results." ∧
    (checkLLMJobStatus_onReply sampleHost pageAnalysing (.str "job-2")
        (statusBody (Option JVal) "pending" none)).dom.status =
      some "LLM analysis in progress... This may take a minute." ∧
    (checkLLMJobStatus_onReply sampleHost pageAnalysing (.str "job-2")
        (statusBody (Option JVal) "pending" none)).dom ≠ pageAnalysing := by
  decide

/-- Claim C7, amended: on a reply with status `pending`, each poller whose message element
is in the page (`#result` for `getJobStatus`, `#status` for
`checkLLMJobStatus`) does exactly this: it writes its fixed progress message
into that element and sets one timer for the same call with the same job id
(1000 ms, 5000 ms).  The rest of the page is as before and nothing else is
issued.  Each poller needs its own element only. -/
theorem pending_reply_outcome (h : Host) (dom : Dom) (jobId : String) (llmJobId : JVal)
    (d1 : StatusData MatchPayload) (d2 : StatusData (Option JVal)) :
    (d1.status = some (.str "pending") → dom.result ≠ none →
      getJobStatus_onReply h dom jobId (.data d1) =
        ⟨{ dom with result := some (.text "Book search pending...") },
          [.setTimeout (.getJobStatus jobId) 1000], false⟩) ∧
    (d2.status = some (.str "pending") → dom.status ≠ none →
      checkLLMJobStatus_onReply h dom llmJobId (.data d2) =
        ⟨{ dom with status := some "LLM analysis in progress... This may take a minute." },
          [.setTimeout (.checkLLMJobStatus llmJobId) 5000], false⟩) := by
  have hf : statusIs (some (.str "pending")) "finished" = false := by decide
  have hx : statusIs (some (.str "pending")) "failed" = false := by decide
  obtain ⟨job, result, status, confirmed, keywords⟩ := dom
  constructor
  · intro h1 hr
    cases result with
    | none => exact absurd rfl hr
    | some rc => simp [getJobStatus_onReply, h1, hf, hx]
  · intro h2 hs
    cases status with
    | none => exact absurd rfl hs
    | some st => simp [checkLLMJobStatus_onReply, checkLLMJobStatus_pending, h2, hf, hx]

/-- Claim C7, amended, on two sample pages: `getJobStatus` with job `job-1` on a page
that has `#result` and no `#status`, `checkLLMJobStatus` with job `job-2` on a
page that has `#status` and no `#result`. -/
theorem pending_reply_outcome_sample :
    (({ pageLoaded with status := none } : Dom).result ≠ none ∧
      ({ pageLoaded with status := none } : Dom).status = none ∧
      getJobStatus_onReply sampleHost { pageLoaded with status := none } "job-1"
          (.data ⟨some (.str "pending"), none, .absent⟩) =
        ⟨{ pageLoaded with status := none, result := some (.text "Book search pending...") },
          [.setTimeout (.getJobStatus "job-1") 1000], false⟩) ∧
    (({ pageAnalysing with result := none } : Dom).status ≠ none ∧
      ({ pageAnalysing with result := none } : Dom).result = none ∧
      checkLLMJobStatus_onReply sampleHost { pageAnalysing with result := none } (.str "job-2")
          (.data ⟨some (.str "pending"), none, none⟩) =
        ⟨{ pageAnalysing with
            result := none
            status := some "LLM analysis in progress... This may take a minute." },
          [.setTimeout (.checkLLMJobStatus (.str "job-2")) 5000], false⟩) :=
  ⟨⟨by decide, by decide,
      (pending_reply_outcome sampleHost { pageLoaded with status := none } "job-1" (.str "job-2")
        ⟨some (.str "pending"), none, .absent⟩ ⟨some (.str "pending"), none, none⟩).1 rfl
        (by decide)⟩,
    ⟨by decide, by decide,
      (pending_reply_outcome sampleHost { pageAnalysing with result := none } "job-1"
        (.str "job-2") ⟨some (.str "pending"), none, .absent⟩
        ⟨some (.str "pending"), none, none⟩).2 rfl (by decide)⟩⟩

theorem pollChain_stops {R : Type} (resume : Call → Option (Dom → Polled R → Outcome))
    (good : (Dom → Polled R → Outcome) → Prop) (reply : Polled R)
    (hstop : ∀ step, good step → ∀ dom, (step dom reply).effects = [])
    (hresume : ∀ call next, resume call = some next → good next)
    (before after : List (Polled R)) (step : Dom → Polled R → Outcome) (hgood : good step)
    (dom : Dom) :
    pollChain resume (before ++ reply :: after) step dom =
      pollChain resume (before ++ [reply]) step dom := by
  induction before generalizing step dom with
  | nil => simp [pollChain, hstop step hgood dom]
  | cons r rs ih =>
    show pollChain resume (r :: (rs ++ reply :: after)) step dom =
      pollChain resume (r :: (rs ++ [reply])) step dom
    simp only [pollChain]
    cases hfind : (step dom r).effects.findSome? (fun e => (timerCall e).bind resume) with
    | none => rfl
    | some next =>
      obtain ⟨e, _, he⟩ := List.exists_of_findSome?_eq_some hfind
      obtain ⟨call, _, hcall⟩ := Option.bind_eq_some.1 he
      simp only [ih next (hresume call next hcall)]

theorem getJobStatus_terminal (h : Host) (dom : Dom) (jobId : String)
    (reply : Polled MatchPayload) (ht : reply.terminal = true) :
    (getJobStatus_onReply h dom jobId reply).effects = [] := by
  obtain ⟨job, result, status, confirmed, keywords⟩ := dom
  cases reply with
  | rejected => cases result <;> rfl
  | null => simp [Polled.terminal] at ht
  | falsy => simp [Polled.terminal] at ht
  | data d =>
    simp only [Polled.terminal, Bool.or_eq_true] at ht
    by_cases hf : statusIs d.status "finished" = true
    · simp only [getJobStatus_onReply, hf, if_true]
      cases d.result <;> cases result <;> rfl
    · have hx : statusIs d.status "failed" = true := by
        rcases ht with ht | ht
        · exact absurd ht hf
        · exact ht
      simp only [getJobStatus_onReply, hf, hx, if_true]
      cases result <;> rfl

theorem checkLLMJobStatus_terminal (h : Host) (dom : Dom) (jobId : JVal)
    (reply : Polled (Option JVal)) (ht : reply.terminal = true) :
    (checkLLMJobStatus_onReply h dom jobId reply).effects = [] := by
  obtain ⟨job, result, status, confirmed, keywords⟩ := dom
  cases reply with
  | rejected => cases status <;> rfl
  | null => simp [Polled.terminal] at ht
  | falsy => simp [Polled.terminal] at ht
  | data d =>
    simp only [Polled.terminal, Bool.or_eq_true] at ht
    cases status with
    | none => rfl
    | some st =>
      by_cases hf : statusIs d.status "finished" = true
      · simp only [checkLLMJobStatus_onReply, hf, if_true]
      · have hx : statusIs d.status "failed" = true := by
          rcases ht with ht | ht
          · exact absurd ht hf
          · exact ht
        simp only [checkLLMJobStatus_onReply, hf, hx, if_true]
        cases result <;> rfl

/-- A terminal reply (a rejection, or status `finished` or `failed`) makes neither poller
issue any effect, so no timer and no further poll; in a chain of replies nothing
after a terminal reply is ever asked for. -/
theorem terminal_reply_ends_polling (h : Host) (dom : Dom) (jobId : String) (llmJobId : JVal)
    (r1 : Polled MatchPayload) (r2 : Polled (Option JVal))
    (before1 after1 : List (Polled MatchPayload))
    (before2 after2 : List (Polled (Option JVal)))
    (ht1 : r1.terminal = true) (ht2 : r2.terminal = true) :
    (getJobStatus_onReply h dom jobId r1).effects = [] ∧
    (checkLLMJobStatus_onReply h dom llmJobId r2).effects = [] ∧
    pollChain (getJobStatus_resume h) (before1 ++ r1 :: after1)
        (fun page reply => getJobStatus_onReply h page jobId reply) dom =
      pollChain (getJobStatus_resume h) (before1 ++ [r1])
        (fun page reply => getJobStatus_onReply h page jobId reply) dom ∧
    pollChain (checkLLMJobStatus_resume h) (before2 ++ r2 :: after2)
        (fun page reply => checkLLMJobStatus_onReply h page llmJobId reply) dom =
      pollChain (checkLLMJobStatus_resume h) (before2 ++ [r2])
        (fun page reply => checkLLMJobStatus_onReply h page llmJobId reply) dom := by
  refine ⟨getJobStatus_terminal h dom jobId r1 ht1,
    checkLLMJobStatus_terminal h dom llmJobId r2 ht2, ?_, ?_⟩
  · refine pollChain_stops (getJobStatus_resume h)
      (fun step => ∃ id, step = fun page reply => getJobStatus_onReply h page id reply) r1
      ?_ ?_ before1 after1 _ ⟨jobId, rfl⟩ dom
    · rintro step ⟨id, rfl⟩ page
      exact getJobStatus_terminal h page id r1 ht1
    · intro call next hnext
      cases call with
      | getJobStatus id =>
        simp only [getJobStatus_resume, Option.some.injEq] at hnext
        exact ⟨id, hnext.symm⟩
      | checkLLMJobStatus id => simp [getJobStatus_resume] at hnext
  · refine pollChain_stops (checkLLMJobStatus_resume h)
      (fun step => ∃ id, step = fun page reply => checkLLMJobStatus_onReply h page id reply) r2
      ?_ ?_ before2 after2 _ ⟨llmJobId, rfl⟩ dom
    · rintro step ⟨id, rfl⟩ page
      exact checkLLMJobStatus_terminal h page id r2 ht2
    · intro call next hnext
      cases call with
      | getJobStatus id => simp [checkLLMJobStatus_resume] at hnext
      | checkLLMJobStatus id =>
        simp only [checkLLMJobStatus_resume, Option.some.injEq] at hnext
        exact ⟨id, hnext.symm⟩

/-- On the sample page a chain that gets `pending`, `failed`, `pending` ends at `failed`:
the reply after it is never asked for. -/
theorem terminal_reply_ends_polling_sample :
    pollChain (checkLLMJobStatus_resume sampleHost)
        ([statusBody (Option JVal) "pending" none] ++
          statusBody (Option JVal) "failed" none :: [statusBody (Option JVal) "pending" none])
        (fun page reply => checkLLMJobStatus_onReply sampleHost page (.str "job-2") reply)
        pageAnalysing =
      pollChain (checkLLMJobStatus_resume sampleHost)
        ([statusBody (Option JVal) "pending" none] ++ [statusBody (Option JVal) "failed" none])
        (fun page reply => checkLLMJobStatus_onReply sampleHost page (.str "job-2") reply)
        pageAnalysing :=
  (terminal_reply_ends_polling sampleHost pageAnalysing "job-1" (.str "job-2")
    (statusBody MatchPayload "finished" (.titles sampleTitles))
    (statusBody (Option JVal) "failed" none) [] []
    [statusBody (Option JVal) "pending" none] [statusBody (Option JVal) "pending" none]
    (by decide) (by decide)).2.2.2

/-- The messages of the terminal replies as the script assigns them.  `getJobStatus`
writes `#result` through `innerText`, so the text shown is the text assigned:
the fixed prefix followed by the error string, or the fixed transport message.
`checkLLMJobStatus` writes `#status` through `innerHTML`: the markup assigned is
the fixed prefix followed by the error string, and the message shown is what
the HTML parser makes of that markup. -/
theorem terminal_messages_assigned (h : Host) (dom : Dom) (jobId : String) (llmJobId : JVal)
    (error : String) (payload : MatchPayload) (result : Option JVal) :
    (dom.result ≠ none →
      (getJobStatus_onReply h dom jobId
          (.data ⟨some (.str "failed"), some (.str error), payload⟩)).dom.resultShown h =
        some ("Book search failed: " ++ error) ∧
      (getJobStatus_onReply h dom jobId .rejected).dom.resultShown h =
        some "Error communicating with the server.") ∧
    (dom.status ≠ none →
      (checkLLMJobStatus_onReply h dom llmJobId
          (.data ⟨some (.str "failed"), some (.str error), result⟩)).dom.status =
        some ("LLM analysis job failed: " ++ error) ∧
      (checkLLMJobStatus_onReply h dom llmJobId
          (.data ⟨some (.str "failed"), some (.str error), result⟩)).dom.statusShown h =
        some (h.markupText ("LLM analysis job failed: " ++ error)) ∧
      (checkLLMJobStatus_onReply h dom llmJobId .rejected).dom.status =
        some "Error checking analysis job status.") := by
  obtain ⟨job, res, status, confirmed, keywords⟩ := dom
  constructor
  · intro hr
    cases res with
    | none => exact absurd rfl hr
    | some rc => exact ⟨rfl, rfl⟩
  · intro hs
    cases status with
    | none => exact absurd rfl hs
    | some st => cases res <;> exact ⟨rfl, rfl, rfl⟩

/-- Claim C9 at a failed analysis job whose error string is `<urlopen error timed out>`:
`checkLLMJobStatus` sets no timer, and it assigns the error string to
`#status` as markup (line 249, `innerHTML`), so the browser takes it for a tag
and the message shown is `LLM analysis job failed: ` without the error string;
of the error `<b>disk</b> full` it shows `disk full`.  `getJobStatus`
(line 99, `innerText`) shows the same error strings as they are. -/
theorem failed_analysis_error_parsed_as_markup :
    (checkLLMJobStatus_onReply sampleHost pageAnalysing (.str "job-2")
        (.data ⟨some (.str "failed"), some (.str "<urlopen error timed out>"), none⟩)).effects.length
      = 0 ∧
    (checkLLMJobStatus_onReply sampleHost pageAnalysing (.str "job-2")
        (.data ⟨some (.str "failed"), some (.str "<urlopen error timed out>"), none⟩)).dom.status
      = some "LLM analysis job failed: <urlopen error timed out>" ∧
    (checkLLMJobStatus_onReply sampleHost pageAnalysing (.str "job-2")
        (.data ⟨some (.str "failed"), some (.str "<urlopen error timed out>"),
          none⟩)).dom.statusShown sampleHost
      = some "LLM analysis job failed: " ∧
    (checkLLMJobStatus_onReply sampleHost pageAnalysing (.str "job-2")
        (.data ⟨some (.str "failed"), some (.str "<b>disk</b> full"),
          none⟩)).dom.statusShown sampleHost
      = some "LLM analysis job failed: disk full" ∧
    ¬ List.IsInfix "<b>disk</b> full".data "LLM analysis job failed: disk full".data ∧
    (getJobStatus_onReply sampleHost pageAnalysing "job-1"
        (.data ⟨some (.str "failed"), some (.str "<urlopen error timed out>"),
          .absent⟩)).dom.resultShown sampleHost
      = some "Book search failed: <urlopen error timed out>" ∧
    (getJobStatus_onReply sampleHost pageAnalysing "job-1"
        (.data ⟨some (.str "failed"), some (.str "<b>disk</b> full"),
          .absent⟩)).dom.resultShown sampleHost
      = some "Book search failed: <b>disk</b> full" := by
  decide

/-! ## What the frequency table counts -/

theorem lookup_objSet {α : Type} (o : List (String × α)) (k k2 : String) (v : α) :
    (objSet o k v).lookup k2 = if k2 = k then some v else o.lookup k2 := by
  induction o with
  | nil =>
    by_cases hk : k2 = k
    · simp [objSet, List.lookup, hk]
    · have : (k2 == k) = false := by simpa using hk
      simp [objSet, List.lookup, hk, this]
  | cons e rest ih =>
    obtain ⟨k0, v0⟩ := e
    by_cases h0 : k0 = k
    · subst h0
      by_cases hk : k2 = k0
      · simp [objSet, List.lookup, hk]
      · have : (k2 == k0) = false := by simpa using hk
        simp [objSet, List.lookup, hk, this]
    · simp only [objSet, h0, if_false]
      by_cases hk0 : k2 = k0
      · subst hk0
        simp [List.lookup, h0]
      · have : (k2 == k0) = false := by simpa using hk0
        simp only [List.lookup, this, ih]

theorem lookup_countTheme (freqs : List (String × Freq)) (theme t : String) (c : Nat)
    (ht : t ≠ "") (hp : t ≠ "__proto__") (hi : t ∉ inheritedFunctionKeys)
    (hc : freqs.lookup t = countedEntry c) :
    (countTheme freqs theme).lookup t = countedEntry (c + [theme].count t) := by
  by_cases hEq : theme = t
  · subst hEq
    have h1 : [theme].count theme = 1 := by simp
    rw [h1]
    unfold countTheme
    simp only [ht, hp, if_false, hc]
    by_cases h0 : c = 0
    · subst h0
      simp [countedEntry, hi, lookup_objSet]
    · simp [countedEntry, h0, lookup_objSet]
  · have h1 : [theme].count t = 0 := by
      simp only [List.count_singleton]
      have : (theme == t) = false := by simpa using hEq
      simp [this]
    have hne : ¬ t = theme := fun h => hEq h.symm
    rw [h1, Nat.add_zero]
    unfold countTheme
    split
    · exact hc
    · split
      · exact hc
      · split <;> (try split) <;> simp only [lookup_objSet, hne, if_false, hc]

theorem lookup_foldl_countTheme (themes : List String) (freqs : List (String × Freq))
    (t : String) (c : Nat) (ht : t ≠ "") (hp : t ≠ "__proto__")
    (hi : t ∉ inheritedFunctionKeys) (hc : freqs.lookup t = countedEntry c) :
    (themes.foldl countTheme freqs).lookup t = countedEntry (c + themes.count t) := by
  induction themes generalizing freqs c with
  | nil => simpa using hc
  | cons theme rest ih =>
    rw [List.foldl_cons, ih _ _ (lookup_countTheme freqs theme t c ht hp hi hc)]
    congr 1
    simp only [List.count_cons, List.count_nil]
    omega

/-- The frequency the code stores for a theme is the number of its occurrences in the
concatenation of the lower-cased theme lists of all books. -/
theorem themeFrequencies_counts_occurrences (h : Host) (d : Option JVal) (t : String)
    (ht : t ≠ "") (hp : t ≠ "__proto__") (hi : t ∉ inheritedFunctionKeys) :
    (themeFrequencies h d).lookup t = countedEntry ((allThemes h d).count t) := by
  have := lookup_foldl_countTheme (allThemes h d) [] t 0 ht hp hi rfl
  simpa [themeFrequencies] using this


theorem count_foldl_bookThemes (h : Host) (t : String) (l : List (String × JVal))
    (hnd : ∀ e ∈ l, (bookThemes h e.2).Nodup) (acc : List String) :
    (l.foldl (fun acc e => acc ++ bookThemes h e.2) acc).count t =
      acc.count t + (l.filter (fun e => decide (t ∈ bookThemes h e.2))).length := by
  induction l generalizing acc with
  | nil => simp
  | cons e rest ih =>
    rw [List.foldl_cons, ih (fun x hx => hnd x (List.mem_cons_of_mem _ hx)), List.count_append]
    by_cases hm : t ∈ bookThemes h e.2
    · rw [List.count_eq_one_of_mem (hnd e (List.mem_cons_self _ _)) hm,
        List.filter_cons_of_pos (by simpa using hm), List.length_cons]
      omega
    · rw [List.count_eq_zero_of_not_mem hm, List.filter_cons_of_neg (by simpa using hm)]
      omega

/-- When no book repeats a theme in its lower-cased list, the number of occurrences the
code counts is the number of books that carry the theme. -/
theorem occurrences_eq_books_of_repeat_free (h : Host) (d : JVal) (t : String)
    (hnd : ∀ e ∈ forInEntries d, (bookThemes h e.2).Nodup) :
    (allThemes h (some d)).count t = booksWithTheme h d t := by
  unfold allThemes booksWithTheme
  by_cases htr : truthy d = true
  · simp only [htr, if_true]
    rw [count_foldl_bookThemes h t _ hnd]
    simp
  · have hempty : forInEntries d = [] := by
      cases d with
      | null => rfl
      | bool b => rfl
      | num n => rfl
      | str s =>
        have hs : s = "" := by simpa [truthy] using htr
        subst hs
        rfl
      | arr items => simp [truthy] at htr
      | obj fields => simp [truthy] at htr
    simp [htr, hempty]

/-! ## Default selections when group names are distinct -/

theorem name_of_mem_enumFrom (h : Host) (group : String) (cs : List Candidate) (n : Nat)
    (r : Radio) (hr : r ∈ (cs.enumFrom n).map (fun e => matchRadio h group e.1 e.2)) :
    r.name = group := by
  obtain ⟨e, _, rfl⟩ := List.mem_map.1 hr
  rfl

theorem name_of_mem_renderRow (h : Host) (t : TitleMatchSet) (r : Radio)
    (hr : r ∈ (renderRow h t).radios) : r.name = groupName t.user_title := by
  unfold renderRow at hr
  split at hr
  · rcases List.mem_cons.1 hr with rfl | hr2
    · rfl
    · exact name_of_mem_enumFrom h _ _ 0 r hr2
  · rcases List.mem_cons.1 hr with rfl | hr2
    · rfl
    · simp at hr2

theorem checkedNames_renderRow (h : Host) (t : TitleMatchSet) (n : String)
    (hn : n ∈ checkedNames (renderRow h t)) : n = groupName t.user_title := by
  unfold checkedNames at hn
  obtain ⟨r, hr, rfl⟩ := List.mem_map.1 hn
  exact name_of_mem_renderRow h t r (List.mem_filter.1 hr).1

theorem connectRow_of_fresh (rows : List Row) (row : Row)
    (hfresh : ∀ old ∈ rows, ∀ r ∈ old.radios, r.name ∉ checkedNames row) :
    connectRow rows row = rows ++ [row] := by
  unfold connectRow
  congr 1
  conv_rhs => rw [← List.map_id rows]
  apply List.map_congr_left
  intro old hold
  have hradios : old.radios.map (Radio.yield (checkedNames row)) = old.radios := by
    conv_rhs => rw [← List.map_id old.radios]
    apply List.map_congr_left
    intro r hr
    simp [Radio.yield, hfresh old hold r hr]
  simp [hradios]

theorem renderRows_foldl_of_distinct (h : Host) (l : List TitleMatchSet) (rows : List Row)
    (hd : (l.map (fun t => groupName t.user_title)).Nodup)
    (hfresh : ∀ old ∈ rows, ∀ r ∈ old.radios, ∀ t ∈ l, r.name ≠ groupName t.user_title) :
    l.foldl (fun rows t => connectRow rows (renderRow h t)) rows =
      rows ++ l.map (renderRow h) := by
  induction l generalizing rows with
  | nil => simp
  | cons t rest ih =>
    simp only [List.map_cons, List.nodup_cons, List.mem_map, not_exists, not_and] at hd
    have hstep : connectRow rows (renderRow h t) = rows ++ [renderRow h t] := by
      apply connectRow_of_fresh
      intro old hold r hr hn
      exact hfresh old hold r hr t (List.mem_cons_self _ _) (checkedNames_renderRow h t _ hn)
    rw [List.foldl_cons, hstep, ih _ hd.2, List.map_cons, List.append_assoc]
    · rfl
    · intro old hold r hr t2 ht2
      rcases List.mem_append.1 hold with h1 | h1
      · exact hfresh old h1 r hr t2 (List.mem_cons_of_mem _ ht2)
      · have hrow : old = renderRow h t := by simpa using h1
        subst hrow
        rw [name_of_mem_renderRow h t r hr]
        intro hEq
        exact hd.1 t2 ht2 hEq.symm

/-- With pairwise distinct group names every row stays as `renderRow` built it. -/
theorem renderRows_of_distinct_groups (h : Host) (l : List TitleMatchSet)
    (hd : (l.map (fun t => groupName t.user_title)).Nodup) :
    renderRows h l = l.map (renderRow h) := by
  have := renderRows_foldl_of_distinct h l [] hd (by simp)
  simpa [renderRows] using this

theorem checked_enumFrom (h : Host) (group : String) (cs : List Candidate) (n : Nat) :
    ((cs.enumFrom (n + 1)).map (fun e => (matchRadio h group e.1 e.2).checked)) =
      List.replicate cs.length false := by
  induction cs generalizing n with
  | nil => rfl
  | cons c rest ih =>
    simp only [List.enumFrom_cons, List.map_cons, List.length_cons, List.replicate_succ]
    rw [ih (n + 1)]
    simp [matchRadio]

/-- The checks `renderRow` sets: with candidates, the exclude radio is unchecked, the
first candidate checked and the others unchecked, and there is no notice;
without candidates the exclude radio is checked and the notice is shown. -/
theorem renderRow_default (h : Host) (t : TitleMatchSet) :
    (t.possible_matches = [] →
      (renderRow h t).radios.map (fun r => (r.value, r.checked)) = [("NONE", true)] ∧
      (renderRow h t).notice = some "No matches found by Google Search") ∧
    (∀ c rest, t.possible_matches = c :: rest →
      (renderRow h t).radios.map (fun r => r.checked) =
        false :: true :: List.replicate rest.length false ∧
      ((renderRow h t).radios.map (fun r => r.value)).take 2 =
        ["NONE", h.JSONstringify c.toJVal] ∧
      (renderRow h t).notice = none) := by
  constructor
  · intro hnil
    simp [renderRow, hnil, noneRadio]
  · intro c rest hcons
    have hchecked := checked_enumFrom h (groupName t.user_title) rest 0
    simp only [Nat.zero_add] at hchecked
    simp only [renderRow, hcons, List.length_cons, Nat.zero_lt_succ, if_true, List.enum,
      List.enumFrom_cons, List.map_cons, List.map_map, Function.comp_def] at hchecked ⊢
    refine ⟨?_, ?_, trivial⟩
    · rw [hchecked]
      simp [noneRadio, matchRadio]
    · simp [noneRadio, matchRadio]

end Bookup
